import Mathlib

/-!  A shallow embedding of the SublimeLint plugin
     (the files sublimelint_plugin.py and sublimelint/loader.py).

     Modelling conventions:
     * Python dicts (LINTERS, QUEUE, ERRORS, the per-view named region
       groups) are association lists; `aset` overwrites a binding, `aerase`
       removes it.  Python dicts never hold duplicate keys; `aerase` removes
       every binding with the key so that lookup-after-erase is exact without
       carrying a no-duplicate side condition, and on duplicate-free lists it
       agrees with Python's `del`.
     * Python module objects are identifiers (`Nat`); an environment
       `Nat → Module` resolves an identifier to its `run` behaviour, and the
       registry maps a language key to an identifier, so that the `==`
       comparisons the plugin performs on modules become decidable.
     * Exceptions do not roll back mutations, so every fallible operation
       returns the state at the moment the exception escapes, paired with
       `Option Exc` (`none` = normal return). -/

namespace SublimeLint

def alookup {κ α : Type} [DecidableEq κ] : List (κ × α) → κ → Option α
  | [], _ => none
  | (k0, v0) :: rest, k => if k = k0 then some v0 else alookup rest k

def aset {κ α : Type} [DecidableEq κ] : List (κ × α) → κ → α → List (κ × α)
  | [], k, v => [(k, v)]
  | (k0, v0) :: rest, k, v =>
      if k = k0 then (k, v) :: rest else (k0, v0) :: aset rest k v

def aerase {κ α : Type} [DecidableEq κ] : List (κ × α) → κ → List (κ × α)
  | [], _ => []
  | (k0, v0) :: rest, k =>
      if k0 = k then aerase rest k else (k0, v0) :: aerase rest k

theorem alookup_aset_self {κ α : Type} [DecidableEq κ]
    (m : List (κ × α)) (k : κ) (v : α) : alookup (aset m k v) k = some v := by
  induction m with
  | nil => simp [aset, alookup]
  | cons hd tl ih =>
      obtain ⟨k0, v0⟩ := hd
      by_cases h : k = k0
      · simp [aset, alookup, h]
      · simp [aset, alookup, h, ih]

theorem alookup_aset_ne {κ α : Type} [DecidableEq κ]
    (m : List (κ × α)) (k k' : κ) (v : α) (h : k' ≠ k) :
    alookup (aset m k v) k' = alookup m k' := by
  induction m with
  | nil => simp [aset, alookup, h]
  | cons hd tl ih =>
      obtain ⟨k0, v0⟩ := hd
      by_cases h0 : k = k0
      · subst h0
        simp [aset, alookup, h]
      · by_cases h1 : k' = k0
        · simp [aset, alookup, h0, h1]
        · simp [aset, alookup, h0, h1, ih]

theorem alookup_aerase_self {κ α : Type} [DecidableEq κ]
    (m : List (κ × α)) (k : κ) : alookup (aerase m k) k = none := by
  induction m with
  | nil => simp [aerase, alookup]
  | cons hd tl ih =>
      obtain ⟨k0, v0⟩ := hd
      by_cases h : k0 = k
      · simp [aerase, h, ih]
      · have h' : ¬ k = k0 := fun hk => h hk.symm
        simp [aerase, alookup, h, h', ih]

/-! ## Exceptions -/

/-- The exception values the plugin's control flow distinguishes. -/
inductive Exc where
  | importError (msg : String)
  | keyError (key : String)
  | runtimeError (msg : String)
  | otherError (msg : String)
deriving DecidableEq

/-! ## The loader (sublimelint/loader.py) -/

/-- A module object as seen right after a successful import: its `language`
    attribute (`Option.none` models the attribute being absent, in which case
    the attribute access raises AttributeError).  The `__file__` bookkeeping
    of `load_module` is not modelled: it touches neither the registry, the
    working directory nor the log. -/
structure ModInfo where
  language : Option String
deriving DecidableEq

/-- The loader's fixed surroundings: the base directory the loader chdirs
    into, and the behaviour of the import machinery (`__import__` followed by
    `reload`), which either yields the module object or raises. -/
structure LoaderEnv where
  basedir : String
  resultOfImport : String → Except Exc ModInfo

/-- The state `load_module` reads and mutates: the process working directory,
    the shared language-to-module registry, and the print log. -/
structure LoaderState where
  cwd : String
  linters : List (String × String)
  log : List String
deriving DecidableEq

/-- Loader.load_module.  The source saves `pushd = os.getcwd()`, chdirs to the
    base directory, imports the module, and only then enters the try block
    that reads `mod.language`; the closing `os.chdir(pushd)` is straight-line
    code after the try.  An exception raised by the import therefore escapes
    before the restoring chdir runs. -/
def load_module (env : LoaderEnv) (name : String) (st : LoaderState) :
    LoaderState × Option Exc :=
  let pushd := st.cwd
  let st1 : LoaderState := { st with cwd := env.basedir }
  match env.resultOfImport name with
  | Except.error e => (st1, some e)
  | Except.ok mod =>
    let st2 : LoaderState :=
      match mod.language with
      | some lang =>
          { st1 with
            linters := aset st1.linters lang name
            log := st1.log ++ ["SublimeLint: Successfully loaded linter " ++ name] }
      | none =>
          { st1 with
            log := st1.log ++
              ["SublimeLint: Error loading " ++ name ++ " - no language specified"] }
    ({ st2 with cwd := pushd }, none)

/-- Loader.load_all.  The glob over the module directory is modelled by the
    list of module base names; the loop skips the ignored name and calls
    `load_module` on each remaining one with no try around the call, so an
    exception escaping `load_module` aborts the remaining iterations. -/
def load_all (env : LoaderEnv) (names : List String) (st : LoaderState) :
    LoaderState × Option Exc :=
  match names with
  | [] => (st, none)
  | n :: rest =>
    if n = "__init__" then load_all env rest st
    else
      match load_module env n st with
      | (st', none) => load_all env rest st'
      | (st', some e) => (st', some e)

/-- A loader environment with three unit definitions: "one" and "three"
    load fine and declare languages, "two" raises during its import (a
    syntax error in its source). -/
def brokenSecondEnv : LoaderEnv :=
  { basedir := "/opt/sublime"
    resultOfImport := fun name =>
      if name = "one" then Except.ok { language := some "lang1" }
      else if name = "three" then Except.ok { language := some "lang3" }
      else Except.error (Exc.importError "SyntaxError") }

def loaderSt0 : LoaderState := { cwd := "/home/user", linters := [], log := [] }

/-- Claim C1 (evaluation of the code at the failing input): calling
    `load_module` on a unit whose import raises, with working directory
    "/home/user" and base directory "/opt/sublime", propagates the exception
    and leaves the working directory at the base directory instead of
    restoring "/home/user" — the restoring chdir is unreachable on this path,
    contradicting the claimed restoration on every exit path. -/
theorem load_module_cwd_not_restored :
    (load_module brokenSecondEnv "two" loaderSt0).1.cwd = "/opt/sublime" ∧
    (load_module brokenSecondEnv "two" loaderSt0).2
      = some (Exc.importError "SyntaxError") ∧
    (load_module brokenSecondEnv "two" loaderSt0).1.cwd ≠ loaderSt0.cwd := by
  refine ⟨rfl, rfl, ?_⟩
  decide

/-- Claim C3 (evaluation of the code at the failing input): with three unit
    definitions where the second raises during import, `load_all` stops at the
    second unit: the exception escapes `load_module` (the import is outside
    its try block) and aborts the loop, so the registry ends with language set
    {lang1} — not the claimed {lang1, lang3} — and the third unit is never
    loaded. -/
theorem load_all_aborted_by_import_error :
    (load_all brokenSecondEnv ["one", "two", "three"] loaderSt0).1.linters
      = [("lang1", "one")] ∧
    (load_all brokenSecondEnv ["one", "two", "three"] loaderSt0).2
      = some (Exc.importError "SyntaxError") := by
  exact ⟨rfl, rfl⟩

/-! ## The plugin (sublimelint_plugin.py) -/

/-- The values the per-view settings of interest take (True, False, or None,
    which is what `settings().get` yields for an unset key and what the
    on-call command stores). -/
inductive PyVal where
  | none
  | bool (b : Bool)
deriving DecidableEq

/-- Python truthiness of a settings value. -/
def truthy : PyVal → Bool
  | PyVal.none => false
  | PyVal.bool b => b

/-- The triple a linter's `run(text, view, filename)` returns: underline
    regions, line numbers to outline in full, and the per-line error
    messages that are assigned to ERRORS[vid]. -/
structure LintResult where
  underlines : List (Nat × Nat)
  lines : List Nat
  errorsByLine : List (Nat × List String)
deriving DecidableEq

/-- The behaviour of one linter module.  `runLint` is the
    `run(text, view, filename)` shape an ordinary linter exposes; `runNotes`
    is the `run(text, view)` shape the "user notes" module exposes (it
    returns only regions).  Either may raise. -/
structure Module where
  runLint : String → String → Except Exc LintResult
  runNotes : String → Except Exc (List (Nat × Nat))

/-- The read side of a view: identity, text snapshot, file name, the
    settings().get("syntax") string, the two settings the plugin consults,
    and the view.full_line(view.text_point(nb, 0)) region computation. -/
structure View where
  vid : Nat
  text : String
  fileName : Option String
  synTag : String
  settingSublimelint : PyVal
  settingNotes : PyVal
  fullLine : Nat → Nat × Nat

/-- The three named region groups the plugin maintains on a view. -/
structure MarkGroups where
  lintUnderline : List (Nat × Nat)
  lintOutlines : List (Nat × Nat)
  userNotes : List (Nat × Nat)
deriving DecidableEq

def MarkGroups.empty : MarkGroups := ⟨[], [], []⟩

/-- The mutable state the plugin's functions touch: ERRORS, the per-view
    region groups, the per-view 'Linter' status message, and the print log. -/
structure PluginState where
  errors : List (Nat × List (Nat × List String))
  marks : List (Nat × MarkGroups)
  status : List (Nat × String)
  log : List String
deriving DecidableEq

/-- The region groups currently on a view (a view with no recorded groups has
    all three empty). -/
def marksOf (st : PluginState) (vid : Nat) : MarkGroups :=
  (alookup st.marks vid).getD MarkGroups.empty

/-- Python's substring test `needle in hay` on strings. -/
def charsContain (needle : List Char) : List Char → Bool
  | [] => needle.isEmpty
  | c :: t => needle.isPrefixOf (c :: t) || charsContain needle t

def strContains (needle hay : String) : Bool :=
  charsContain needle.toList hay.toList

/-- erase_lint_marks: erase_regions for 'lint-underline' and 'lint-outlines'. -/
def erase_lint_marks (view : View) (st : PluginState) : PluginState :=
  let g := marksOf st view.vid
  { st with marks := aset st.marks view.vid ({ g with lintUnderline := [], lintOutlines := [] }) }

/-- add_lint_marks: erase both lint groups, then `if underlines:` add the
    underline regions and `if lines:` add the computed full-line outline
    regions (an empty list is falsy, so an empty group is not re-added). -/
def add_lint_marks (view : View) (underlines : List (Nat × Nat)) (lines : List Nat)
    (st : PluginState) : PluginState :=
  let st1 := erase_lint_marks view st
  let st2 :=
    if underlines.isEmpty then st1
    else
      let g1 := marksOf st1 view.vid
      { st1 with marks := aset st1.marks view.vid ({ g1 with lintUnderline := underlines }) }
  if lines.isEmpty then st2
  else
    let g2 := marksOf st2 view.vid
    let m2 := aset st2.marks view.vid ({ g2 with lintOutlines := lines.map view.fullLine })
    { st2 with marks := m2 }

/-- select_linter: iterate the registry in order and return the module of the
    first language key occurring as a substring of the view's "syntax"
    settings string, or None when no key matches. -/
def select_linter (linters : List (String × Nat)) (tag : String) : Option Nat :=
  match linters with
  | [] => none
  | (language, m) :: rest =>
      if strContains language tag then some m else select_linter rest tag

/-- highlight_notes: erase the 'user_notes' group, look up the "user notes"
    module (a KeyError if it is not registered — note the erase has already
    happened), run it on the text, and `if regions:` add them back. -/
def highlight_notes (env : Nat → Module) (linters : List (String × Nat))
    (view : View) (st : PluginState) : PluginState × Option Exc :=
  let g := marksOf st view.vid
  let st1 : PluginState :=
    { st with marks := aset st.marks view.vid ({ g with userNotes := [] }) }
  match alookup linters "user notes" with
  | none => (st1, some (Exc.keyError "user notes"))
  | some notesMod =>
    match (env notesMod).runNotes view.text with
    | Except.error e => (st1, some e)
    | Except.ok regions =>
      if regions.isEmpty then (st1, none)
      else
        let g1 := marksOf st1 view.vid
        ({ st1 with marks := aset st1.marks view.vid ({ g1 with userNotes := regions }) }, none)

/-- run_once: first compares the given linter against LINTERS["user notes"]
    (a KeyError when that key is unregistered), delegates to highlight_notes
    for the notes module, and otherwise runs the linter on the text with the
    resolved filename ("untitled" when the view has none), assigns the third
    component to ERRORS[vid], and applies the marks.  If `run` raises, the
    assignment and the mark update never happen. -/
def run_once (env : Nat → Module) (linters : List (String × Nat)) (linter : Nat)
    (view : View) (st : PluginState) : PluginState × Option Exc :=
  match alookup linters "user notes" with
  | none => (st, some (Exc.keyError "user notes"))
  | some notesMod =>
    if linter = notesMod then highlight_notes env linters view st
    else
      let filename := view.fileName.getD "untitled"
      match (env linter).runLint view.text filename with
      | Except.error e => (st, some e)
      | Except.ok r =>
        let st1 : PluginState := { st with errors := aset st.errors view.vid r.errorsByLine }
        (add_lint_marks view r.underlines r.lines st1, none)

/-- background_run: run the linter only when the per-view 'sublimelint'
    setting is truthy (and a linter was selected); then, if the run did not
    raise, highlight notes when 'sublimelint_notes' is truthy. -/
def background_run (env : Nat → Module) (linters : List (String × Nat))
    (linter : Option Nat) (view : View) (st : PluginState) :
    PluginState × Option Exc :=
  let r :=
    if truthy view.settingSublimelint then
      match linter with
      | some l => run_once env linters l view st
      | none => (st, none)
    else (st, none)
  match r with
  | (st1, none) =>
      if truthy view.settingNotes then highlight_notes env linters view st1
      else (st1, none)
  | (st1, some e) => (st1, some e)

/-- The _update_view callback the scheduler defers onto the UI context:
    select the linter, call background_run, and catch (and print) exactly
    RuntimeError; any other exception escapes the callback. -/
def update_view (env : Nat → Module) (linters : List (String × Nat))
    (view : View) (st : PluginState) : PluginState × Option Exc :=
  let r := background_run env linters (select_linter linters view.synTag) view st
  match r.2 with
  | some (Exc.runtimeError m) => ({ r.1 with log := r.1.log ++ [m] }, none)
  | _ => r

/-- on_selection_modified: when ERRORS has the view and the cursor's line,
    set the 'Linter' status to the messages joined with "; ", otherwise erase
    the 'Linter' status. -/
def on_selection_modified (view : View) (lineno : Nat) (st : PluginState) :
    PluginState :=
  match alookup st.errors view.vid with
  | some lineMap =>
    match alookup lineMap lineno with
    | some msgs =>
        { st with status := aset st.status view.vid (String.intercalate "; " msgs) }
    | none => { st with status := aerase st.status view.vid }
  | none => { st with status := aerase st.status view.vid }

/-- queue_linter: enqueue the view keyed by its id when a linter is selected
    for it; otherwise erase its lint marks and do not queue it. -/
def queue_linter (linters : List (String × Nat)) (view : View)
    (queue : List (Nat × View)) (st : PluginState) :
    List (Nat × View) × PluginState :=
  match select_linter linters view.synTag with
  | none => (queue, erase_lint_marks view st)
  | some _ => (aset queue view.vid view, st)

/-- Lint._run: clear the per-view 'sublimelint' setting (set it to None) when
    it is truthy, then run the named linter once via run_once on the (possibly
    updated) view. -/
def Lint_run (env : Nat → Module) (linters : List (String × Nat)) (name : String)
    (view : View) (st : PluginState) : View × PluginState × Option Exc :=
  let view1 :=
    if truthy view.settingSublimelint then { view with settingSublimelint := PyVal.none }
    else view
  match alookup linters name with
  | some l =>
      let r := run_once env linters l view1 st
      (view1, r.1, r.2)
  | none => (view1, st, some (Exc.keyError name))

/-! ## The background_linter drain, as an interleaving model

    One iteration of the scheduler's `while True` body is:
    take a snapshot of the queue's keys (`dict(QUEUE)` — one atomic dict
    copy under the interpreter lock), and then, per snapshot key, schedule a
    deferred callback for it (`sublime.set_timeout`) and `del` that single
    key.  Enqueues from the editing thread (`QUEUE[vid] = view`, an
    idempotent insert at the key level) may interleave anywhere between
    those per-key steps.  The model tracks queue membership and the ids a
    callback was scheduled for; callbacks themselves run later on the UI
    context (see `update_view`), so their outcome cannot interfere with the
    drain. -/

inductive DrainEv where
  | enq (v : Nat)
  | dispatch (v : Nat)
  | delete (v : Nat)
deriving DecidableEq

structure DState where
  queue : List Nat
  dispatched : List Nat
deriving DecidableEq

/-- QUEUE[vid] = view: an insert that is a no-op on an already-queued id. -/
def enqQ (q : List Nat) (v : Nat) : List Nat :=
  if v ∈ q then q else q ++ [v]

def stepEv (s : DState) : DrainEv → DState
  | DrainEv.enq v => { s with queue := enqQ s.queue v }
  | DrainEv.dispatch v => { s with dispatched := s.dispatched ++ [v] }
  | DrainEv.delete v => { s with queue := s.queue.erase v }

def runEvs (s : DState) (evs : List DrainEv) : DState :=
  evs.foldl stepEv s

/-- The drain's own steps for a snapshot: per key, schedule then delete. -/
def drainEvs : List Nat → List DrainEv
  | [] => []
  | v :: rest => DrainEv.dispatch v :: DrainEv.delete v :: drainEvs rest

def isEnq : DrainEv → Bool
  | DrainEv.enq _ => true
  | _ => false

/-- `evs` is the drain over snapshot `S` with arbitrary concurrent enqueues
    interleaved: removing the enqueues leaves exactly the drain's steps. -/
def Interleaves (S : List Nat) (evs : List DrainEv) : Prop :=
  evs.filter (fun e => !isEnq e) = drainEvs S

/-- One drain cycle with no concurrent enqueues, starting from queue `q`. -/
def drain_once (q : List Nat) : DState :=
  runEvs { queue := q, dispatched := [] } (drainEvs q)

def dispId : DrainEv → Option Nat
  | DrainEv.dispatch v => some v
  | _ => none

theorem runEvs_append (s : DState) (l r : List DrainEv) :
    runEvs s (l ++ r) = runEvs (runEvs s l) r := by
  simp [runEvs, List.foldl_append]

theorem dispatched_runEvs (evs : List DrainEv) : ∀ s : DState,
    (runEvs s evs).dispatched = s.dispatched ++ evs.filterMap dispId := by
  induction evs with
  | nil => intro s; simp [runEvs]
  | cons e rest ih =>
      intro s
      cases e with
      | enq v => simp [runEvs, List.foldl_cons, stepEv, dispId, List.filterMap_cons] at ih ⊢
                 exact ih _
      | dispatch v =>
          simp [runEvs, List.foldl_cons, stepEv, dispId, List.filterMap_cons] at ih ⊢
          rw [ih]
          simp [stepEv]
      | delete v =>
          simp [runEvs, List.foldl_cons, stepEv, dispId, List.filterMap_cons] at ih ⊢
          exact ih _

theorem queue_runEvs_mem (evs : List DrainEv) : ∀ s : DState, ∀ v : Nat,
    v ∈ s.queue → DrainEv.delete v ∉ evs → v ∈ (runEvs s evs).queue := by
  induction evs with
  | nil => intro s v hv _; simpa [runEvs] using hv
  | cons e rest ih =>
      intro s v hv hnd
      have hnd1 : DrainEv.delete v ∉ rest := fun h => hnd (List.mem_cons_of_mem _ h)
      cases e with
      | enq w =>
          refine ih _ v ?_ hnd1
          simp only [stepEv, enqQ]
          by_cases hw : w ∈ s.queue
          · simpa [hw] using hv
          · simp [hw]
            exact Or.inl hv
      | dispatch w => exact ih _ v hv hnd1
      | delete w =>
          have hvw : v ≠ w := by
            intro h
            exact hnd (by simp [h])
          refine ih _ v ?_ hnd1
          simp only [stepEv]
          exact (List.mem_erase_of_ne hvw).mpr hv

theorem filterMap_dispId_drainEvs (S : List Nat) :
    (drainEvs S).filterMap dispId = S := by
  induction S with
  | nil => simp [drainEvs]
  | cons v rest ih => simp [drainEvs, List.filterMap_cons, dispId, ih]

theorem filterMap_dispId_filter (evs : List DrainEv) :
    evs.filterMap dispId = (evs.filter (fun e => !isEnq e)).filterMap dispId := by
  induction evs with
  | nil => simp
  | cons e rest ih =>
      cases e <;> simp [List.filterMap_cons, List.filter_cons, isEnq, dispId, ih]

theorem mem_drainEvs_delete (S : List Nat) (v : Nat)
    (h : DrainEv.delete v ∈ drainEvs S) : v ∈ S := by
  induction S with
  | nil => simp [drainEvs] at h
  | cons w rest ih =>
      simp only [drainEvs, List.mem_cons] at h
      rcases h with h | h | h
      · exact absurd h (by simp)
      · simp [DrainEv.delete.injEq] at h
        simp [h]
      · exact List.mem_cons_of_mem _ (ih h)

theorem dispatched_final (S : List Nat) (evs : List DrainEv)
    (hI : Interleaves S evs) :
    (runEvs { queue := S, dispatched := [] } evs).dispatched = S := by
  rw [dispatched_runEvs]
  rw [filterMap_dispId_filter, hI, filterMap_dispId_drainEvs]
  simp

theorem isEnq_drainEvs (q : List Nat) : ∀ e ∈ drainEvs q, isEnq e = false := by
  induction q with
  | nil => simp [drainEvs]
  | cons v rest ih =>
      intro e he
      simp only [drainEvs, List.mem_cons] at he
      rcases he with h | h | h
      · subst h; rfl
      · subst h; rfl
      · exact ih e h

theorem filter_drainEvs (q : List Nat) :
    (drainEvs q).filter (fun e => !isEnq e) = drainEvs q := by
  rw [List.filter_eq_self]
  intro e he
  simp [isEnq_drainEvs q e he]

theorem drain_once_dispatched (q : List Nat) : (drain_once q).dispatched = q := by
  exact dispatched_final q (drainEvs q) (filter_drainEvs q)

/-! ## Claim theorems -/

/-- Claim C4: for every snapshot and every interleaving of concurrent
    enqueue calls with the drain's per-document steps, the drain dispatches
    exactly the snapshot ids, and each id enqueued during the drain lands in
    exactly one of the two drains: if the drain still deletes that id after
    the enqueue (the id was in the snapshot and not yet deleted), the id is
    dispatched in the current drain; otherwise the entry survives the entire
    drain and an undisturbed next drain dispatches it.  No enqueued id is
    dropped.  The snapshot itself (the dict copy) is the one atomic step;
    the per-key deletes are separate steps that enqueues may interleave
    with, and the property holds for every such interleaving. -/
theorem drain_exactly_one (S : List Nat) (evs l r : List DrainEv) (v : Nat)
    (hI : Interleaves S evs)
    (hsplit : evs = l ++ DrainEv.enq v :: r) :
    (runEvs { queue := S, dispatched := [] } evs).dispatched = S ∧
    (DrainEv.delete v ∈ r →
        v ∈ (runEvs { queue := S, dispatched := [] } evs).dispatched) ∧
    (DrainEv.delete v ∉ r →
        v ∈ (runEvs { queue := S, dispatched := [] } evs).queue ∧
        v ∈ (drain_once (runEvs { queue := S, dispatched := [] } evs).queue).dispatched) := by
  have hdisp := dispatched_final S evs hI
  refine ⟨hdisp, ?_, ?_⟩
  · intro hdel
    have hv : DrainEv.delete v ∈ evs := by
      rw [hsplit]
      exact List.mem_append_right _ (List.mem_cons_of_mem _ hdel)
    have hvS : v ∈ S := by
      refine mem_drainEvs_delete S v ?_
      rw [← hI]
      exact List.mem_filter.mpr ⟨hv, by simp [isEnq]⟩
    rw [hdisp]
    exact hvS
  · intro hdel
    have hq : v ∈ (runEvs { queue := S, dispatched := [] } evs).queue := by
      rw [hsplit, runEvs_append]
      have hstep :
          runEvs (runEvs { queue := S, dispatched := [] } l) (DrainEv.enq v :: r)
            = runEvs (stepEv (runEvs { queue := S, dispatched := [] } l)
                (DrainEv.enq v)) r := by
        simp [runEvs]
      rw [hstep]
      refine queue_runEvs_mem r _ v ?_ hdel
      simp only [stepEv, enqQ]
      by_cases h : v ∈ (runEvs { queue := S, dispatched := [] } l).queue
      · simp [h]
      · simp [h]
    refine ⟨hq, ?_⟩
    rw [drain_once_dispatched]
    exact hq

/-- Witness for C4: snapshot {1, 2}; id 3 is enqueued between the dispatch
    of 1 and the delete of 1; it is never deleted by the current drain, so it
    survives to the final queue and the next drain dispatches it. -/
theorem drain_exactly_one_witness :
    Interleaves [1, 2]
      [DrainEv.dispatch 1, DrainEv.enq 3, DrainEv.delete 1,
       DrainEv.dispatch 2, DrainEv.delete 2] ∧
    3 ∈ (runEvs { queue := [1, 2], dispatched := [] }
      [DrainEv.dispatch 1, DrainEv.enq 3, DrainEv.delete 1,
       DrainEv.dispatch 2, DrainEv.delete 2]).queue ∧
    3 ∈ (drain_once (runEvs { queue := [1, 2], dispatched := [] }
      [DrainEv.dispatch 1, DrainEv.enq 3, DrainEv.delete 1,
       DrainEv.dispatch 2, DrainEv.delete 2]).queue).dispatched := by
  have h := drain_exactly_one [1, 2]
    [DrainEv.dispatch 1, DrainEv.enq 3, DrainEv.delete 1,
     DrainEv.dispatch 2, DrainEv.delete 2]
    [DrainEv.dispatch 1]
    [DrainEv.delete 1, DrainEv.dispatch 2, DrainEv.delete 2] 3 rfl rfl
  have h3 := h.2.2 (by decide)
  exact ⟨rfl, h3.1, h3.2⟩

/-! ## Demo fixtures for the dispatcher claims -/

/-- A well-behaved "user notes" module. -/
def notesModule : Module :=
  { runLint := fun _ _ => Except.ok { underlines := [], lines := [], errorsByLine := [] }
    runNotes := fun _ => Except.ok [] }

/-- A linter whose run raises a non-RuntimeError exception. -/
def boomModule : Module :=
  { runLint := fun _ _ => Except.error (Exc.otherError "boom")
    runNotes := fun _ => Except.ok [] }

/-- A linter whose run raises RuntimeError. -/
def rtModule : Module :=
  { runLint := fun _ _ => Except.error (Exc.runtimeError "rt fault")
    runNotes := fun _ => Except.ok [] }

/-- A linter that returns diagnostics only on line 3. -/
def lineModule : Module :=
  { runLint := fun _ _ =>
      Except.ok { underlines := [], lines := [], errorsByLine := [(3, ["new msg"])] }
    runNotes := fun _ => Except.ok [] }

def demoLinters : List (String × Nat) := [("Python", 1), ("user notes", 0)]

def envBoom : Nat → Module := fun n => if n = 1 then boomModule else notesModule

def envRt : Nat → Module := fun n => if n = 1 then rtModule else notesModule

def envLine : Nat → Module := fun n => if n = 1 then lineModule else notesModule

/-- A Python view with background linting switched on. -/
def pyView : View :=
  { vid := 7
    text := "x = 1"
    fileName := some "a.py"
    synTag := "Packages/Python/Python.tmLanguage"
    settingSublimelint := PyVal.bool true
    settingNotes := PyVal.none
    fullLine := fun nb => (nb, nb + 1) }

def st0 : PluginState := { errors := [], marks := [], status := [], log := [] }

/-- Counterexample to claim C2 as stated: a linter raising an exception that
    is not a RuntimeError is NOT caught at the per-document callback
    boundary — the callback's except clause names RuntimeError only, so the
    exception escapes the callback. -/
theorem update_view_uncaught_exception :
    (update_view envBoom demoLinters pyView st0).2
      = some (Exc.otherError "boom") := rfl

/-- Claim C2 (amended): the per-document callback boundary catches and logs
    exactly RuntimeError; when the dispatched run raises a RuntimeError the
    callback swallows it and appends the message to the log.  Independently
    of any callback's outcome, a drain schedules a callback for every queued
    document (callbacks are deferred onto the UI context, so no callback
    exception can reach the scheduler loop or block the other documents of
    the cycle). -/
theorem update_view_catches_runtime (env : Nat → Module)
    (linters : List (String × Nat)) (view : View) (st : PluginState) (m : String)
    (h : (background_run env linters (select_linter linters view.synTag) view st).2
        = some (Exc.runtimeError m)) :
    (update_view env linters view st).2 = none ∧
    (update_view env linters view st).1.log
      = (background_run env linters (select_linter linters view.synTag) view st).1.log
        ++ [m] ∧
    ∀ q : List Nat, (drain_once q).dispatched = q := by
  have key : update_view env linters view st
      = ({ (background_run env linters (select_linter linters view.synTag) view st).1
            with
            log := (background_run env linters
              (select_linter linters view.synTag) view st).1.log ++ [m] }, none) := by
    unfold update_view
    simp only [h]
  rw [key]
  exact ⟨rfl, rfl, drain_once_dispatched⟩

/-- Witness for the amended C2: a linter raising RuntimeError "rt fault" is
    caught at the callback boundary and its message logged. -/
theorem update_view_catches_runtime_witness :
    (update_view envRt demoLinters pyView st0).2 = none ∧
    (update_view envRt demoLinters pyView st0).1.log
      = (background_run envRt demoLinters
          (select_linter demoLinters pyView.synTag) pyView st0).1.log ++ ["rt fault"] ∧
    ∀ q : List Nat, (drain_once q).dispatched = q := by
  exact update_view_catches_runtime envRt demoLinters pyView st0 "rt fault" rfl

/-- Claim C5: when the linter's run raises during run_once (on the ordinary,
    non-notes path), run_once returns with the whole plugin state exactly as
    it was: ERRORS still holds the document's previous entry and no mark was
    erased or re-added, because the ERRORS assignment and the mark update
    are sequenced after a successful return of run. -/
theorem run_once_error_preserves_state (env : Nat → Module)
    (linters : List (String × Nat)) (linter : Nat) (view : View)
    (st : PluginState) (notesMod : Nat) (e : Exc)
    (hn : alookup linters "user notes" = some notesMod)
    (hne : linter ≠ notesMod)
    (hrun : (env linter).runLint view.text (view.fileName.getD "untitled")
        = Except.error e) :
    run_once env linters linter view st = (st, some e) := by
  unfold run_once
  rw [hn]
  simp only [hne, if_false, hrun]

/-- Witness for C5: a crashing linter leaves a state with prior diagnostics
    and prior marks completely untouched. -/
theorem run_once_error_preserves_state_witness :
    run_once envBoom demoLinters 1 pyView
        { errors := [(7, [(1, ["old"])])]
          marks := [(7, { lintUnderline := [(0, 5)], lintOutlines := [(2, 3)],
                          userNotes := [] })]
          status := []
          log := [] }
      = ({ errors := [(7, [(1, ["old"])])]
           marks := [(7, { lintUnderline := [(0, 5)], lintOutlines := [(2, 3)],
                           userNotes := [] })]
           status := []
           log := [] }, some (Exc.otherError "boom")) := by
  exact run_once_error_preserves_state envBoom demoLinters 1 pyView _ 0
    (Exc.otherError "boom") rfl (by decide) rfl

/-- add_lint_marks mutates only the view's region groups; ERRORS, the status
    map and the log pass through unchanged. -/
theorem add_lint_marks_frame (view : View) (u : List (Nat × Nat)) (l : List Nat)
    (st : PluginState) :
    (add_lint_marks view u l st).errors = st.errors ∧
    (add_lint_marks view u l st).status = st.status ∧
    (add_lint_marks view u l st).log = st.log := by
  unfold add_lint_marks erase_lint_marks
  by_cases hu : u.isEmpty <;> by_cases hl : l.isEmpty <;> simp [hu, hl]

/-- Claim C6: a completed run wholly replaces the document's ERRORS entry
    with the run's per-line messages (no merge with prior lines), and the
    status lookup performed on cursor movement reads exactly that new map:
    a line absent from the new map erases the status, a present line shows
    its messages joined with "; ". -/
theorem run_once_replaces_diagnostics (env : Nat → Module)
    (linters : List (String × Nat)) (linter : Nat) (view : View)
    (st : PluginState) (notesMod : Nat) (r : LintResult)
    (hn : alookup linters "user notes" = some notesMod)
    (hne : linter ≠ notesMod)
    (hrun : (env linter).runLint view.text (view.fileName.getD "untitled")
        = Except.ok r) :
    alookup (run_once env linters linter view st).1.errors view.vid
        = some r.errorsByLine ∧
    ∀ lineno : Nat,
      alookup (on_selection_modified view lineno
          (run_once env linters linter view st).1).status view.vid
        = (alookup r.errorsByLine lineno).map (String.intercalate "; ") := by
  have hstate : (run_once env linters linter view st).1
      = add_lint_marks view r.underlines r.lines
          { st with errors := aset st.errors view.vid r.errorsByLine } := by
    unfold run_once
    rw [hn]
    simp only [hne, if_false, hrun]
  have herr : (run_once env linters linter view st).1.errors
      = aset st.errors view.vid r.errorsByLine := by
    rw [hstate]
    exact (add_lint_marks_frame view r.underlines r.lines _).1
  have hlook : alookup (run_once env linters linter view st).1.errors view.vid
      = some r.errorsByLine := by
    rw [herr]
    exact alookup_aset_self _ _ _
  refine ⟨hlook, ?_⟩
  intro lineno
  unfold on_selection_modified
  rw [hlook]
  cases hline : alookup r.errorsByLine lineno with
  | none => simp [hline, alookup_aerase_self]
  | some msgs => simp [hline, alookup_aset_self]

def stTwoLines : PluginState :=
  { errors := [(7, [(1, ["a"]), (2, ["b"])])], marks := [], status := [], log := [] }

/-- Witness for C6: prior diagnostics on lines 1 and 2, new run returning
    only line 3; afterwards the status lookup is empty on lines 1 and 2 and
    shows the new message on line 3. -/
theorem run_once_replaces_diagnostics_witness :
    alookup (run_once envLine demoLinters 1 pyView stTwoLines).1.errors 7
      = some [(3, ["new msg"])] ∧
    alookup (on_selection_modified pyView 1
        (run_once envLine demoLinters 1 pyView stTwoLines).1).status 7 = none ∧
    alookup (on_selection_modified pyView 2
        (run_once envLine demoLinters 1 pyView stTwoLines).1).status 7 = none ∧
    alookup (on_selection_modified pyView 3
        (run_once envLine demoLinters 1 pyView stTwoLines).1).status 7
      = some "new msg" := by
  have h := run_once_replaces_diagnostics envLine demoLinters 1 pyView stTwoLines 0
    { underlines := [], lines := [], errorsByLine := [(3, ["new msg"])] }
    rfl (by decide) rfl
  refine ⟨h.1, ?_, ?_, ?_⟩
  · simpa using h.2 1
  · simpa using h.2 2
  · simpa using h.2 3

/-- Claim C7: select_linter returns the module of the first registry entry
    (in iteration order) whose language key occurs as a substring of the
    view's "syntax" settings string, returns None exactly when no registered
    key is a substring of it, and in particular the key "Python" matches the
    tag "Packages/Python/Python.tmLanguage". -/
theorem select_linter_first_substring_match :
    (∀ (linters : List (String × Nat)) (tag : String),
        select_linter linters tag
          = (linters.find? (fun p => strContains p.1 tag)).map Prod.snd) ∧
    (∀ (linters : List (String × Nat)) (tag : String),
        select_linter linters tag = none ↔
          ∀ p ∈ linters, strContains p.1 tag = false) ∧
    select_linter [("Python", 1)] "Packages/Python/Python.tmLanguage" = some 1 := by
  have hfind : ∀ (linters : List (String × Nat)) (tag : String),
      select_linter linters tag
        = (linters.find? (fun p => strContains p.1 tag)).map Prod.snd := by
    intro linters tag
    induction linters with
    | nil => simp [select_linter]
    | cons hd tl ih =>
        obtain ⟨lang, m⟩ := hd
        by_cases h : strContains lang tag
        · simp [select_linter, h, List.find?_cons_of_pos]
        · rw [show select_linter ((lang, m) :: tl) tag = select_linter tl tag by
            simp [select_linter, h]]
          rw [List.find?_cons_of_neg _ (by simpa using h)]
          exact ih
  refine ⟨hfind, ?_, ?_⟩
  · intro linters tag
    rw [hfind]
    constructor
    · intro h p hp
      have hnone : linters.find? (fun p => strContains p.1 tag) = none := by
        cases hf : linters.find? (fun p => strContains p.1 tag) with
        | none => rfl
        | some x => rw [hf] at h; simp at h
      have := List.find?_eq_none.mp hnone p hp
      simpa using this
    · intro h
      have hnone : linters.find? (fun p => strContains p.1 tag) = none :=
        List.find?_eq_none.mpr (fun p hp => by simp [h p hp])
      simp [hnone]
  · rfl

/-- Claim C8: applying lint marks is a full replace.  Whatever groups the
    view carried before, after add_lint_marks the underline group is the
    run's underline list when non-empty and empty otherwise, the outline
    group is the full-line regions of the run's line set when non-empty and
    empty otherwise, and the notes group is untouched; in particular the
    spec's two-run scenario ends with both lint groups empty. -/
theorem add_lint_marks_full_replace (view : View) (u : List (Nat × Nat))
    (l : List Nat) (st : PluginState) :
    ((marksOf (add_lint_marks view u l st) view.vid).lintUnderline
        = if u.isEmpty then [] else u) ∧
    ((marksOf (add_lint_marks view u l st) view.vid).lintOutlines
        = if l.isEmpty then [] else l.map view.fullLine) ∧
    ((marksOf (add_lint_marks view u l st) view.vid).userNotes
        = (marksOf st view.vid).userNotes) ∧
    marksOf (add_lint_marks pyView [] []
        (add_lint_marks pyView [(0, 5)] [2] st0)) pyView.vid
      = { lintUnderline := [], lintOutlines := [], userNotes := [] } := by
  refine ⟨?_, ?_, ?_, rfl⟩ <;>
  · unfold add_lint_marks erase_lint_marks
    by_cases hu : u.isEmpty <;> by_cases hl : l.isEmpty <;>
      simp [hu, hl, marksOf, alookup_aset_self]

/-- Claim C9: run_once starts by looking up LINTERS["user notes"]; when no
    unit is registered under that key the lookup raises KeyError before the
    given linter is ever invoked, whatever the linter is, and the state is
    returned unmodified. -/
theorem run_once_requires_user_notes (env : Nat → Module)
    (linters : List (String × Nat)) (linter : Nat) (view : View)
    (st : PluginState)
    (h : alookup linters "user notes" = none) :
    run_once env linters linter view st = (st, some (Exc.keyError "user notes")) := by
  unfold run_once
  rw [h]

/-- Witness for C9: with an ordinary Python linter registered but no
    "user notes" unit, run_once on that ordinary linter fails with the
    KeyError instead of linting. -/
theorem run_once_requires_user_notes_witness :
    run_once envLine [("Python", 1)] 1 pyView st0
      = (st0, some (Exc.keyError "user notes")) := by
  exact run_once_requires_user_notes envLine [("Python", 1)] 1 pyView st0 rfl

/-- Claim C10: invoking the on-call command with a registered linter's key
    sets the truthy per-view 'sublimelint' setting to None before running
    the linter once via run_once on the updated view, leaves the setting
    unchanged when it was already falsy, and a view whose 'sublimelint'
    setting is falsy (with notes highlighting off) gets no background run. -/
theorem Lint_run_disables_background_setting (env : Nat → Module)
    (linters : List (String × Nat)) (name : String) (view : View)
    (st : PluginState) (l : Nat)
    (hreg : alookup linters name = some l) :
    (truthy view.settingSublimelint = true →
        (Lint_run env linters name view st).1.settingSublimelint = PyVal.none) ∧
    (truthy view.settingSublimelint = false →
        (Lint_run env linters name view st).1 = view) ∧
    ((Lint_run env linters name view st).2
        = run_once env linters l (Lint_run env linters name view st).1 st) ∧
    (∀ (envB : Nat → Module) (lintersB : List (String × Nat))
        (linterB : Option Nat) (viewB : View) (stB : PluginState),
        truthy viewB.settingSublimelint = false →
        truthy viewB.settingNotes = false →
        background_run envB lintersB linterB viewB stB = (stB, none)) := by
  have hlr : Lint_run env linters name view st
      = ((if truthy view.settingSublimelint
            then { view with settingSublimelint := PyVal.none } else view),
         (run_once env linters l
            (if truthy view.settingSublimelint
              then { view with settingSublimelint := PyVal.none } else view) st).1,
         (run_once env linters l
            (if truthy view.settingSublimelint
              then { view with settingSublimelint := PyVal.none } else view) st).2) := by
    unfold Lint_run
    rw [hreg]
  refine ⟨?_, ?_, ?_, ?_⟩
  · intro ht
    rw [hlr]
    simp [ht]
  · intro hf
    rw [hlr]
    simp [hf]
  · rw [hlr]
  · intro envB lintersB linterB viewB stB h1 h2
    unfold background_run
    simp [h1, h2]

/-- Witness for C10: running the on-call command for the registered key
    "Python" on a view with 'sublimelint' set to True leaves the setting at
    None, which is falsy, so background linting is disabled afterwards. -/
theorem Lint_run_disables_background_setting_witness :
    (Lint_run envLine demoLinters "Python" pyView st0).1.settingSublimelint
      = PyVal.none ∧
    truthy (Lint_run envLine demoLinters "Python" pyView st0).1.settingSublimelint
      = false := by
  have h := Lint_run_disables_background_setting envLine demoLinters "Python"
    pyView st0 1 rfl
  have h1 := h.1 rfl
  exact ⟨h1, by rw [h1]; rfl⟩

end SublimeLint
